import Mathlib

/-!
# Verification of the ICO container encoder (`createIcoFromPng`)

Shallow embedding of `src/utils/icoUtils.ts`.  An `ArrayBuffer` is modelled
as a `List Nat` of byte values; the `DataView` write methods are modelled
with the ECMAScript integer-conversion semantics (`ToUint8` / `ToUint16` /
`ToUint32` wrap the written integer modulo 2^8 / 2^16 / 2^32, and multi-byte
writes here are little-endian, matching the `true` endianness flag used at
every call site).  JavaScript `number` arguments that the claims quantify
over as integers are modelled as `Int`; Lean's `%` on `Int` is Euclidean
modulo, which matches ECMAScript's "modulo" operation (non-negative result).
-/

set_option autoImplicit false

namespace IcoHuny

/-- `DataView.setUint8(off, v)`: writes `ToUint8(v)` at byte offset `off`.
`List.set` leaves the buffer unchanged on an out-of-range offset, which is
never exercised: every offset used by the encoder is inside the buffer. -/
def setUint8 (buf : List Nat) (off : Nat) (v : Int) : List Nat :=
  buf.set off (v % 256).toNat

/-- `DataView.setUint16(off, v, true)`: little-endian 16-bit write of
`ToUint16(v)` at byte offset `off`. -/
def setUint16 (buf : List Nat) (off : Nat) (v : Int) : List Nat :=
  let u := (v % 65536).toNat
  (buf.set off (u % 256)).set (off + 1) (u / 256)

/-- `DataView.setUint32(off, v, true)`: little-endian 32-bit write of
`ToUint32(v)` at byte offset `off`. -/
def setUint32 (buf : List Nat) (off : Nat) (v : Int) : List Nat :=
  let u := (v % 4294967296).toNat
  ((((buf.set off (u % 256)).set (off + 1) (u / 256 % 256)).set
      (off + 2) (u / 65536 % 256)).set (off + 3) (u / 16777216))

/-- `Uint8Array.prototype.set(src, off)`: copies `src` element by element
into `dst` starting at byte offset `off`. -/
def setBytes (dst : List Nat) (src : List Nat) (off : Nat) : List Nat :=
  match src with
  | [] => dst
  | b :: rest => setBytes (dst.set off b) rest (off + 1)

/-- The encoder of `src/utils/icoUtils.ts`: builds the 6-byte ICO header and
the single 16-byte directory entry in a freshly allocated zero-initialised
buffer of size `22 + pngBuffer.byteLength`, then copies the PNG payload in
at offset 22.  Each step mirrors one statement of the source. -/
def createIcoFromPng (pngBuffer : List Nat) (width height : Int) : List Nat :=
  let icoBufferSize := 22 + pngBuffer.length
  let buffer := List.replicate icoBufferSize 0
  let b1 := setUint16 buffer 0 0
  let b2 := setUint16 b1 2 1
  let b3 := setUint16 b2 4 1
  let b4 := setUint8 b3 6 (if width ≥ 256 then 0 else width)
  let b5 := setUint8 b4 7 (if height ≥ 256 then 0 else height)
  let b6 := setUint8 b5 8 0
  let b7 := setUint8 b6 9 0
  let b8 := setUint16 b7 10 1
  let b9 := setUint16 b8 12 32
  let b10 := setUint32 b9 14 (pngBuffer.length : Int)
  let b11 := setUint32 b10 18 22
  setBytes b11 pngBuffer 22

/-- The byte the encoder stores in a directory dimension field:
`0` for a dimension `≥ 256` (the ICO sentinel), otherwise the dimension
wrapped to an unsigned byte by `setUint8`. -/
def dimByte (d : Int) : Nat :=
  ((if d ≥ 256 then (0 : Int) else d) % 256).toNat

/-- The 22-byte prefix (6-byte header plus 16-byte directory entry) the
encoder produces, as a function of the payload length and the dimensions. -/
def icoHeader (n : Nat) (w h : Int) : List Nat :=
  [0, 0, 1, 0, 1, 0,
   dimByte w, dimByte h,
   0, 0, 1, 0, 32, 0,
   n % 256, n / 256 % 256, n / 65536 % 256, n / 16777216 % 256,
   22, 0, 0, 0]

/-- The raw 22-byte image of the header writes, entrywise exactly as the
`DataView` calls compute them. -/
def icoHeaderRaw (n : Nat) (w h : Int) : List Nat :=
  [((0 : Int) % 65536).toNat % 256, ((0 : Int) % 65536).toNat / 256,
   ((1 : Int) % 65536).toNat % 256, ((1 : Int) % 65536).toNat / 256,
   ((1 : Int) % 65536).toNat % 256, ((1 : Int) % 65536).toNat / 256,
   ((if w ≥ 256 then (0 : Int) else w) % 256).toNat,
   ((if h ≥ 256 then (0 : Int) else h) % 256).toNat,
   ((0 : Int) % 256).toNat, ((0 : Int) % 256).toNat,
   ((1 : Int) % 65536).toNat % 256, ((1 : Int) % 65536).toNat / 256,
   ((32 : Int) % 65536).toNat % 256, ((32 : Int) % 65536).toNat / 256,
   ((n : Int) % 4294967296).toNat % 256,
   ((n : Int) % 4294967296).toNat / 256 % 256,
   ((n : Int) % 4294967296).toNat / 65536 % 256,
   ((n : Int) % 4294967296).toNat / 16777216,
   ((22 : Int) % 4294967296).toNat % 256,
   ((22 : Int) % 4294967296).toNat / 256 % 256,
   ((22 : Int) % 4294967296).toNat / 65536 % 256,
   ((22 : Int) % 4294967296).toNat / 16777216]

/-- Little-endian read-back of a 16-bit field at byte offset `off`. -/
def readLE16 (l : List Nat) (off : Nat) : Nat :=
  l.getD off 0 + 256 * l.getD (off + 1) 0

/-- Little-endian read-back of a 32-bit field at byte offset `off`. -/
def readLE32 (l : List Nat) (off : Nat) : Nat :=
  l.getD off 0 + 256 * l.getD (off + 1) 0 + 65536 * l.getD (off + 2) 0 +
    16777216 * l.getD (off + 3) 0

/-- The two host-visible buffers of one encoder call: the caller's input
`ArrayBuffer` holding the PNG bytes, and the freshly allocated output
`ArrayBuffer`.  Used to state the frame property: every write of the
encoder targets `icoBuffer`; `pngBuffer` is only read. -/
structure HostState where
  pngBuffer : List Nat
  icoBuffer : List Nat

/-- Step-by-step imperative reading of `createIcoFromPng`, threading the
pair of host buffers through every statement of the source: the allocation,
the eleven `DataView` writes and the final `Uint8Array.set` copy all update
`icoBuffer` only, reading `pngBuffer` where the source reads it. -/
def createIcoFromPngRun (pngBuffer : List Nat) (width height : Int) :
    HostState :=
  let s0 : HostState := ⟨pngBuffer, List.replicate (22 + pngBuffer.length) 0⟩
  let s1 : HostState := ⟨s0.pngBuffer, setUint16 s0.icoBuffer 0 0⟩
  let s2 : HostState := ⟨s1.pngBuffer, setUint16 s1.icoBuffer 2 1⟩
  let s3 : HostState := ⟨s2.pngBuffer, setUint16 s2.icoBuffer 4 1⟩
  let s4 : HostState :=
    ⟨s3.pngBuffer, setUint8 s3.icoBuffer 6 (if width ≥ 256 then 0 else width)⟩
  let s5 : HostState :=
    ⟨s4.pngBuffer,
     setUint8 s4.icoBuffer 7 (if height ≥ 256 then 0 else height)⟩
  let s6 : HostState := ⟨s5.pngBuffer, setUint8 s5.icoBuffer 8 0⟩
  let s7 : HostState := ⟨s6.pngBuffer, setUint8 s6.icoBuffer 9 0⟩
  let s8 : HostState := ⟨s7.pngBuffer, setUint16 s7.icoBuffer 10 1⟩
  let s9 : HostState := ⟨s8.pngBuffer, setUint16 s8.icoBuffer 12 32⟩
  let s10 : HostState :=
    ⟨s9.pngBuffer, setUint32 s9.icoBuffer 14 (s9.pngBuffer.length : Int)⟩
  let s11 : HostState := ⟨s10.pngBuffer, setUint32 s10.icoBuffer 18 22⟩
  ⟨s11.pngBuffer, setBytes s11.icoBuffer s11.pngBuffer 22⟩

/-!
## Structural characterisation

The central fact everything else follows from:
`createIcoFromPng p w h = icoHeader p.length w h ++ p`.
-/

theorem length_setUint8 (buf : List Nat) (off : Nat) (v : Int) :
    (setUint8 buf off v).length = buf.length := by
  simp [setUint8]

theorem length_setUint16 (buf : List Nat) (off : Nat) (v : Int) :
    (setUint16 buf off v).length = buf.length := by
  simp [setUint16]

theorem length_setUint32 (buf : List Nat) (off : Nat) (v : Int) :
    (setUint32 buf off v).length = buf.length := by
  simp [setUint32]

theorem setUint8_append {l₁ l₂ : List Nat} {off : Nat} {v : Int}
    (h : off < l₁.length) :
    setUint8 (l₁ ++ l₂) off v = setUint8 l₁ off v ++ l₂ := by
  simp [setUint8, List.set_append_left _ _ h]

theorem setUint16_append {l₁ l₂ : List Nat} {off : Nat} {v : Int}
    (h : off + 1 < l₁.length) :
    setUint16 (l₁ ++ l₂) off v = setUint16 l₁ off v ++ l₂ := by
  simp only [setUint16]
  rw [List.set_append_left _ _ (by omega),
      List.set_append_left _ _ (by simpa using h)]

theorem setUint32_append {l₁ l₂ : List Nat} {off : Nat} {v : Int}
    (h : off + 3 < l₁.length) :
    setUint32 (l₁ ++ l₂) off v = setUint32 l₁ off v ++ l₂ := by
  simp only [setUint32]
  rw [List.set_append_left _ _ (by omega),
      List.set_append_left _ _ (by simp; omega),
      List.set_append_left _ _ (by simp; omega),
      List.set_append_left _ _ (by simpa using h)]

theorem set_at_length (pre : List Nat) (x b : Nat) (t : List Nat) :
    (pre ++ x :: t).set pre.length b = pre ++ b :: t := by
  induction pre with
  | nil => rfl
  | cons a pre ih => simp [List.set]

theorem setBytes_at_length (src : List Nat) :
    ∀ pre : List Nat,
      setBytes (pre ++ List.replicate src.length 0) src pre.length =
        pre ++ src := by
  induction src with
  | nil => intro pre; simp [setBytes]
  | cons b rest ih =>
      intro pre
      have h1 : (pre ++ List.replicate (b :: rest).length 0).set pre.length b
          = (pre ++ [b]) ++ List.replicate rest.length 0 := by
        simp [List.replicate_succ, set_at_length pre 0 b
          (List.replicate rest.length 0)]
      have h2 : pre.length + 1 = (pre ++ [b]).length := by simp
      calc setBytes (pre ++ List.replicate (b :: rest).length 0) (b :: rest)
            pre.length
            = setBytes ((pre ++ [b]) ++ List.replicate rest.length 0) rest
              ((pre ++ [b]).length) := by
                rw [setBytes, h1, h2]
        _ = (pre ++ [b]) ++ rest := ih (pre ++ [b])
        _ = pre ++ b :: rest := by simp

set_option maxHeartbeats 1600000 in
theorem headerWrites_eq_raw (n : Nat) (w h : Int) :
    setUint32 (setUint32 (setUint16 (setUint16 (setUint8 (setUint8 (setUint8
      (setUint8 (setUint16 (setUint16 (setUint16 (List.replicate 22 0)
        0 0) 2 1) 4 1) 6 (if w ≥ 256 then 0 else w))
        7 (if h ≥ 256 then 0 else h)) 8 0) 9 0) 10 1) 12 32)
        14 (n : Int)) 18 22 = icoHeaderRaw n w h := by
  rfl

theorem icoHeaderRaw_eq (n : Nat) (w h : Int) :
    icoHeaderRaw n w h = icoHeader n w h := by
  have hu : ((n : Int) % 4294967296).toNat = n % 4294967296 := by omega
  have h1 : n % 4294967296 % 256 = n % 256 := by omega
  have h2 : n % 4294967296 / 256 % 256 = n / 256 % 256 := by omega
  have h3 : n % 4294967296 / 65536 % 256 = n / 65536 % 256 := by omega
  have h4 : n % 4294967296 / 16777216 = n / 16777216 % 256 := by omega
  simp only [icoHeaderRaw, icoHeader, dimByte, hu, h1, h2, h3, h4]
  norm_num
  decide

theorem icoHeader_length (n : Nat) (w h : Int) :
    (icoHeader n w h).length = 22 := rfl

/-- Main structural theorem: the encoder's output is the 22-byte header
followed by the payload, verbatim. -/
theorem createIcoFromPng_eq (p : List Nat) (w h : Int) :
    createIcoFromPng p w h = icoHeader p.length w h ++ p := by
  simp only [createIcoFromPng]
  rw [List.replicate_add]
  rw [setUint16_append (by simp),
      setUint16_append (by simp [length_setUint16]),
      setUint16_append (by simp [length_setUint16]),
      setUint8_append (by simp [length_setUint16]),
      setUint8_append (by simp [length_setUint16, length_setUint8]),
      setUint8_append (by simp [length_setUint16, length_setUint8]),
      setUint8_append (by simp [length_setUint16, length_setUint8]),
      setUint16_append (by simp [length_setUint16, length_setUint8]),
      setUint16_append (by simp [length_setUint16, length_setUint8]),
      setUint32_append (by simp [length_setUint16, length_setUint8]),
      setUint32_append
        (by simp [length_setUint16, length_setUint8, length_setUint32])]
  rw [headerWrites_eq_raw, icoHeaderRaw_eq]
  have h22 : (22 : Nat) = (icoHeader p.length w h).length := rfl
  rw [h22, setBytes_at_length p (icoHeader p.length w h)]

/-- Reading any byte of the 22-byte prefix of the output reads the header. -/
theorem getD_createIcoFromPng (p : List Nat) (w h : Int) (i : Nat)
    (hi : i < 22) :
    (createIcoFromPng p w h).getD i 0 = (icoHeader p.length w h).getD i 0 := by
  rw [createIcoFromPng_eq]
  exact List.getD_append _ _ _ _ (by rw [icoHeader_length]; exact hi)

/-- The payload-size directory field decodes to the payload length wrapped
to 32 bits (the `ToUint32` conversion of `setUint32`). -/
theorem readLE32_size_field (p : List Nat) (w h : Int) :
    readLE32 (createIcoFromPng p w h) 14 = p.length % 4294967296 := by
  have e14 : (createIcoFromPng p w h).getD 14 0 = p.length % 256 :=
    getD_createIcoFromPng p w h 14 (by norm_num)
  have e15 : (createIcoFromPng p w h).getD 15 0 = p.length / 256 % 256 :=
    getD_createIcoFromPng p w h 15 (by norm_num)
  have e16 : (createIcoFromPng p w h).getD 16 0 = p.length / 65536 % 256 :=
    getD_createIcoFromPng p w h 16 (by norm_num)
  have e17 : (createIcoFromPng p w h).getD 17 0 = p.length / 16777216 % 256 :=
    getD_createIcoFromPng p w h 17 (by norm_num)
  rw [readLE32, e14, e15, e16, e17]
  omega

/-- The payload-offset directory field decodes to 22. -/
theorem readLE32_offset_field (p : List Nat) (w h : Int) :
    readLE32 (createIcoFromPng p w h) 18 = 22 := by
  have e18 : (createIcoFromPng p w h).getD 18 0 = 22 :=
    getD_createIcoFromPng p w h 18 (by norm_num)
  have e19 : (createIcoFromPng p w h).getD 19 0 = 0 :=
    getD_createIcoFromPng p w h 19 (by norm_num)
  have e20 : (createIcoFromPng p w h).getD 20 0 = 0 :=
    getD_createIcoFromPng p w h 20 (by norm_num)
  have e21 : (createIcoFromPng p w h).getD 21 0 = 0 :=
    getD_createIcoFromPng p w h 21 (by norm_num)
  rw [readLE32, e18, e19, e20, e21]

/-- The width byte of the directory entry is `dimByte width`. -/
theorem width_byte_eq (p : List Nat) (w h : Int) :
    (createIcoFromPng p w h).getD 6 0 = dimByte w :=
  getD_createIcoFromPng p w h 6 (by norm_num)

/-- The height byte of the directory entry is `dimByte height`. -/
theorem height_byte_eq (p : List Nat) (w h : Int) :
    (createIcoFromPng p w h).getD 7 0 = dimByte h :=
  getD_createIcoFromPng p w h 7 (by norm_num)

/-!
## The claims
-/

/-- C1: for every byte buffer `p` (including empty) and all integers
`w`, `h`, the output of `createIcoFromPng p w h` has length exactly
`22 + p.length`. -/
theorem ico_size_invariant (p : List Nat) (w h : Int) :
    (createIcoFromPng p w h).length = 22 + p.length := by
  rw [createIcoFromPng_eq, List.length_append, icoHeader_length]

/-- C2: bytes at offsets 0 through 5 of the output equal
`[0, 0, 1, 0, 1, 0]` (reserved = 0, type = 1, count = 1, little-endian),
independent of the inputs. -/
theorem ico_header_invariant (p : List Nat) (w h : Int) :
    (createIcoFromPng p w h).take 6 = [0, 0, 1, 0, 1, 0] := by
  rw [createIcoFromPng_eq]
  rfl

/-- C3: bytes at offsets 22 through `22 + p.length - 1` of the output equal
`p` verbatim, for every `p` including the empty buffer. -/
theorem ico_payload_placement (p : List Nat) (w h : Int) :
    (createIcoFromPng p w h).drop 22 = p := by
  rw [createIcoFromPng_eq]
  exact List.drop_left' (icoHeader_length p.length w h)

/-- C4 (counterexample): at `p = List.replicate 4294967296 0` the 4-byte
little-endian field at offset 14 does not equal `p.length`: `setUint32`
wraps the written length modulo 2^32, so the field holds 0. -/
theorem ico_size_field_wraps_cex :
    readLE32 (createIcoFromPng (List.replicate 4294967296 0) 1 1) 14 ≠
      (List.replicate 4294967296 0).length := by
  rw [readLE32_size_field, List.length_replicate]
  norm_num

/-- C4 (amended): the 4-byte little-endian field at offset 14 equals
`p.length % 2^32` (hence equals `p.length` whenever `p.length < 2^32`),
and the 4-byte little-endian field at offset 18 equals 22. -/
theorem ico_size_offset_fields (p : List Nat) (w h : Int) :
    readLE32 (createIcoFromPng p w h) 14 = p.length % 4294967296 ∧
    readLE32 (createIcoFromPng p w h) 18 = 22 :=
  ⟨readLE32_size_field p w h, readLE32_offset_field p w h⟩

/-- C5: the directory width byte at offset 6 equals `w` for
`1 ≤ w ≤ 255` and equals 0 for `w ≥ 256`; likewise the height byte at
offset 7 for `h`. -/
theorem ico_dimension_sentinel (p : List Nat) (w h : Int) :
    (1 ≤ w → w ≤ 255 → (createIcoFromPng p w h).getD 6 0 = w.toNat) ∧
    (256 ≤ w → (createIcoFromPng p w h).getD 6 0 = 0) ∧
    (1 ≤ h → h ≤ 255 → (createIcoFromPng p w h).getD 7 0 = h.toNat) ∧
    (256 ≤ h → (createIcoFromPng p w h).getD 7 0 = 0) := by
  rw [width_byte_eq, height_byte_eq]
  unfold dimByte
  refine ⟨fun h1 h2 => ?_, fun h1 => ?_, fun h1 h2 => ?_, fun h1 => ?_⟩
  · rw [if_neg (by omega)]; omega
  · rw [if_pos (by omega)]; rfl
  · rw [if_neg (by omega)]; omega
  · rw [if_pos (by omega)]; rfl

/-- C5 witness: at `w = 255`, `h = 256` the width byte is 255 and the
height byte is 0. -/
theorem ico_dimension_sentinel_witness :
    (createIcoFromPng [] 255 256).getD 6 0 = 255 ∧
    (createIcoFromPng [] 255 256).getD 7 0 = 0 :=
  ⟨(ico_dimension_sentinel [] 255 256).1 (by decide) (by decide),
   (ico_dimension_sentinel [] 255 256).2.2.2 (by decide)⟩

/-- C6: the constant directory-entry fields: palette count byte (offset 8)
is 0, reserved byte (offset 9) is 0, the 16-bit little-endian color-planes
field (offset 10) is 1 and the 16-bit little-endian bits-per-pixel field
(offset 12) is 32, independent of the inputs. -/
theorem ico_directory_constants (p : List Nat) (w h : Int) :
    (createIcoFromPng p w h).getD 8 0 = 0 ∧
    (createIcoFromPng p w h).getD 9 0 = 0 ∧
    readLE16 (createIcoFromPng p w h) 10 = 1 ∧
    readLE16 (createIcoFromPng p w h) 12 = 32 := by
  refine ⟨getD_createIcoFromPng p w h 8 (by norm_num),
          getD_createIcoFromPng p w h 9 (by norm_num), ?_, ?_⟩
  · rw [readLE16, getD_createIcoFromPng p w h 10 (by norm_num),
        getD_createIcoFromPng p w h 11 (by norm_num)]
    rfl
  · rw [readLE16, getD_createIcoFromPng p w h 12 (by norm_num),
        getD_createIcoFromPng p w h 13 (by norm_num)]
    rfl

/-- C7: the encoder is a total function: on every byte buffer `p`
(including empty or non-PNG content) and all integers `w`, `h` it returns
an output of length `22 + p.length` whose first 22 bytes depend only on
`p.length`, `w` and `h` (the payload content is never inspected) and whose
remaining bytes are `p` itself; being a Lean function into `List Nat`, it
can neither fail nor diverge. -/
theorem ico_total_shape (p : List Nat) (w h : Int) :
    (createIcoFromPng p w h).length = 22 + p.length ∧
    (createIcoFromPng p w h).take 22 = icoHeader p.length w h ∧
    (createIcoFromPng p w h).drop 22 = p := by
  refine ⟨?_, ?_, ?_⟩
  · rw [createIcoFromPng_eq, List.length_append, icoHeader_length]
  · rw [createIcoFromPng_eq]
    exact List.take_left' (icoHeader_length p.length w h)
  · rw [createIcoFromPng_eq]
    exact List.drop_left' (icoHeader_length p.length w h)

/-- C8: the encoder is deterministic: two calls on byte-identical payloads
and equal dimensions return byte-identical outputs; the result depends on
nothing but the three arguments. -/
theorem ico_deterministic (p₁ p₂ : List Nat) (w₁ w₂ h₁ h₂ : Int)
    (hp : p₁ = p₂) (hw : w₁ = w₂) (hh : h₁ = h₂) :
    createIcoFromPng p₁ w₁ h₁ = createIcoFromPng p₂ w₂ h₂ := by
  rw [hp, hw, hh]

/-- C8 witness: two calls on the same concrete input agree. -/
theorem ico_deterministic_witness :
    createIcoFromPng [137, 80, 78, 71] 32 32 =
      createIcoFromPng [137, 80, 78, 71] 32 32 :=
  ico_deterministic [137, 80, 78, 71] [137, 80, 78, 71] 32 32 32 32
    rfl rfl rfl

/-- C9: the encoder has no side effects on its input: running the
imperative statement sequence over the pair of host buffers leaves the
input PNG buffer exactly as it was, and assembles in the freshly allocated
output buffer exactly the value of the pure function. -/
theorem ico_no_mutation (p : List Nat) (w h : Int) :
    (createIcoFromPngRun p w h).pngBuffer = p ∧
    (createIcoFromPngRun p w h).icoBuffer = createIcoFromPng p w h := by
  constructor
  · simp only [createIcoFromPngRun]
  · simp only [createIcoFromPngRun, createIcoFromPng]

/-- C10: for every `w < 256`, including 0 and negative values, the width
byte at offset 6 equals `w` modulo 256 (wrapped into an unsigned byte, not
rejected); likewise the height byte at offset 7 for `h < 256`. -/
theorem ico_dimension_wrap (p : List Nat) (w h : Int) :
    (w < 256 → (createIcoFromPng p w h).getD 6 0 = (w % 256).toNat) ∧
    (h < 256 → (createIcoFromPng p w h).getD 7 0 = (h % 256).toNat) := by
  rw [width_byte_eq, height_byte_eq]
  unfold dimByte
  constructor
  · intro h1; rw [if_neg (by omega)]
  · intro h1; rw [if_neg (by omega)]

/-- C10 witness: at `w = -1`, `h = 0` the width byte is 255 and the height
byte is 0. -/
theorem ico_dimension_wrap_witness :
    (createIcoFromPng [] (-1) 0).getD 6 0 = 255 ∧
    (createIcoFromPng [] (-1) 0).getD 7 0 = 0 := by
  have h6 := (ico_dimension_wrap [] (-1) 0).1 (by decide)
  have h7 := (ico_dimension_wrap [] (-1) 0).2 (by decide)
  norm_num at h6 h7
  exact ⟨h6, h7⟩

end IcoHuny
